import Mathlib

/-!
# A todo list served over HTTP: model of `main.go` and its properties

The program is one Go file: a table `todos(id INTEGER NOT NULL PRIMARY KEY
AUTOINCREMENT, title TEXT)` in an embedded SQL store, three handlers
(`indexHandler`, `createHandler`, `deleteHandler`) and the registration of the
three handlers on the default request multiplexer.

The handlers are translated line by line.  What they call but do not define
(the SQL engine, `net/http`, `text/template`) is modelled as far as the
handlers use it:

* the global `DB` handle becomes an explicit state `DB`, threaded through the
  handlers;
* a statement may fail for reasons outside the program (store unavailable,
  locked, I/O error); that choice belongs to the environment and is an explicit
  argument (`Option String`, `QueryFault`);
* the engine's comparison of the bound text parameter of `DELETE ... WHERE
  id = ?` with the integer key is an explicit argument `idEq`;
* `http.ResponseWriter` becomes a record of status, headers and body.
-/

set_option maxRecDepth 20000

namespace TodoApp

/-! ## Data model -/

/-- Todo represents a task in the todo list (`type Todo struct`). -/
structure Todo where
  ID : Int
  Title : String
deriving DecidableEq

/-- Largest key the table can hold (largest signed 64-bit integer). -/
def maxRowid : Int := 9223372036854775807

/-- State behind the global `DB` handle: the rows of table `todos` in key
order (the order in which a full scan returns them) and the counter the engine
keeps for an `AUTOINCREMENT` key, the largest key ever handed out. -/
structure DB where
  rows : List Todo
  seq : Int
deriving DecidableEq

/-- State after `initDB` on a store that does not exist yet: `CREATE TABLE IF
NOT EXISTS` creates an empty table, and no key has been handed out. -/
def initDB : DB := { rows := [], seq := 0 }

/-- Largest key present in the table, if any. -/
def lastRowid : List Todo → Option Int
  | [] => none
  | t :: ts =>
    match lastRowid ts with
    | none => some t.ID
    | some m => some (max t.ID m)

/-- Key chosen for a new row of an `AUTOINCREMENT` table: one more than the
largest key in the table (1 for an empty table), raised to one more than the
counter; no key is available once the largest key was reached. -/
def newRowid (db : DB) : Option Int :=
  match lastRowid db.rows with
  | none =>
    if db.seq = maxRowid then none else some (max 1 (db.seq + 1))
  | some m =>
    if m = maxRowid ∨ db.seq = maxRowid then none else some (max (m + 1) (db.seq + 1))

/-- Statement `INSERT INTO todos(title) VALUES(?)` with the title bound: fails
with the environment's error when there is one and when no key is available,
otherwise stores one new row under a new key. A failed statement leaves the
store as it was. -/
def execInsert (fault : Option String) (db : DB) (title : String) : Except String DB :=
  match fault with
  | some e => .error e
  | none =>
    match newRowid db with
    | none => .error "database or disk is full"
    | some v => .ok { rows := db.rows ++ [{ ID := v, Title := title }], seq := v }

/-- Statement `DELETE FROM todos WHERE id = ?` with the text `id` bound:
removes the rows whose key the engine finds equal to the text; `idEq` is the
engine's comparison of a text value with an integer key. -/
def execDelete (idEq : String → Int → Bool) (fault : Option String) (db : DB) (id : String) :
    Except String DB :=
  match fault with
  | some e => .error e
  | none => .ok { db with rows := db.rows.filter (fun t => !idEq id t.ID) }

/-- What the environment does to one run of the select-all query. -/
inductive QueryFault where
  /-- Nothing goes wrong. -/
  | none
  /-- `DB.Query` itself returns the error. -/
  | query (e : String)
  /-- `rows.Scan` of row number `k` (from 0) returns the error. -/
  | scan (k : Nat) (e : String)
  /-- After `k` rows `rows.Next` returns false because of the error, which is
  left in `rows.Err`. -/
  | next (k : Nat) (e : String)

/-- Result set of a query: one entry per row that `rows.Next` announces, with
what `rows.Scan` gives for it, and the error `rows.Err` reports after the
iteration. -/
structure Rows where
  items : List (Except String Todo)
  err : Option String

/-- Scan results of the rows when the scan of row number `k` fails. -/
def scanResults (e : String) : Nat → List Todo → List (Except String Todo)
  | _, [] => []
  | 0, _ :: ts => .error e :: ts.map .ok
  | k + 1, t :: ts => .ok t :: scanResults e k ts

/-- Query `SELECT id, title FROM todos`. -/
def dbQuery (fault : QueryFault) (db : DB) : Except String Rows :=
  match fault with
  | .none => .ok { items := db.rows.map .ok, err := Option.none }
  | .query e => .error e
  | .scan k e => .ok { items := scanResults e k db.rows, err := Option.none }
  | .next k e => .ok { items := (db.rows.take k).map .ok, err := some e }

/-! ## Requests and responses -/

/-- The parts of `http.Request` the handlers read. `PostForm` holds the fields
of a form-encoded body, `Query` the fields of the URL query string. -/
structure Request where
  Method : String
  Path : String
  Query : List (String × String)
  PostForm : List (String × String)

/-- First value of a key in a list of fields, the empty string when absent. -/
def firstValue (fields : List (String × String)) (key : String) : String :=
  match fields with
  | [] => ""
  | (k, v) :: rest => if k = key then v else firstValue rest key

/-- Method `r.FormValue(key)`: body fields take precedence over query fields. -/
def Request.FormValue (r : Request) (key : String) : String :=
  firstValue (r.PostForm ++ r.Query) key

/-- Expression `r.URL.Query().Get(key)`. -/
def Request.QueryGet (r : Request) (key : String) : String :=
  firstValue r.Query key

/-- Constant `http.StatusInternalServerError`. -/
def StatusInternalServerError : Nat := 500

/-- Constant `http.StatusSeeOther`. -/
def StatusSeeOther : Nat := 303

/-- Constant `http.StatusOK`. -/
def StatusOK : Nat := 200

/-- State of an `http.ResponseWriter`: the headers set by the handler, the
status once written, and the body bytes written so far. Headers the server
adds when it sends the response are not part of it. -/
structure ResponseWriter where
  header : List (String × String)
  status : Option Nat
  body : String
deriving DecidableEq

/-- Writer handed to a handler for a new request. -/
def ResponseWriter.fresh : ResponseWriter := { header := [], status := none, body := "" }

/-- Call `w.Header().Set(key, value)`. -/
def ResponseWriter.setHeader (w : ResponseWriter) (key value : String) : ResponseWriter :=
  { w with header := (key, value) :: w.header.filter (fun kv => kv.1 ≠ key) }

/-- Call `w.Header().Get(key)`, as an option. -/
def ResponseWriter.getHeader (w : ResponseWriter) (key : String) : Option String :=
  w.header.lookup key

/-- Call `w.WriteHeader(code)`: only the first status counts. -/
def ResponseWriter.WriteHeader (w : ResponseWriter) (code : Nat) : ResponseWriter :=
  match w.status with
  | some _ => w
  | none => { w with status := some code }

/-- Call `w.Write(data)`: writes status 200 first when none was written. -/
def ResponseWriter.Write (w : ResponseWriter) (data : String) : ResponseWriter :=
  let w1 := w.WriteHeader StatusOK
  { w1 with body := w1.body ++ data }

/-- Function `http.Error(w, error, code)`: plain-text headers, the status, and
the error text printed as one line (`fmt.Fprintln`). -/
def httpError (w : ResponseWriter) (error : String) (code : Nat) : ResponseWriter :=
  let w1 := w.setHeader "Content-Type" "text/plain; charset=utf-8"
  let w2 := w1.setHeader "X-Content-Type-Options" "nosniff"
  let w3 := w2.WriteHeader code
  w3.Write (error ++ "\n")

/-- Replacement of the five characters `net/http` escapes in the body of a
redirect. -/
def htmlEscapeChar (c : Char) : String :=
  if c = '&' then "&amp;"
  else if c = '<' then "&lt;"
  else if c = '>' then "&gt;"
  else if c = '"' then "&#34;"
  else if c = Char.ofNat 39 then "&#39;"
  else String.singleton c

/-- Function `htmlEscape` of `net/http`. -/
def htmlEscape (s : String) : String :=
  String.join (s.data.map htmlEscapeChar)

/-- Function `http.StatusText` for the codes that occur here. -/
def StatusText (code : Nat) : String :=
  if code = 200 then "OK"
  else if code = 303 then "See Other"
  else if code = 500 then "Internal Server Error"
  else ""

/-- Function `http.Redirect(w, r, url, code)` for a `url` that is an absolute,
clean path such as `/` (which is then the redirect target as it stands): sets
`Location`, writes the status, and for a GET request a short HTML body. -/
def httpRedirect (w : ResponseWriter) (r : Request) (url : String) (code : Nat) :
    ResponseWriter :=
  let hadCT := (w.getHeader "Content-Type").isSome
  let w1 := w.setHeader "Location" url
  let w2 := if !hadCT && (r.Method = "GET" || r.Method = "HEAD")
    then w1.setHeader "Content-Type" "text/html; charset=utf-8" else w1
  let w3 := w2.WriteHeader code
  if !hadCT && r.Method = "GET"
  then w3.Write ("<a href=\"" ++ htmlEscape url ++ "\">" ++ StatusText code ++ "</a>.\n" ++ "\n")
  else w3

/-! ## The page template (`text/template`) -/

/-- A piece of the body of `{{range .}} ... {{end}}`; inside it the dot is one
`Todo`. -/
inductive Action where
  /-- Literal text. -/
  | text (s : String)
  /-- The action `{{.Title}}`. -/
  | fieldTitle
  /-- The action `{{.ID}}`. -/
  | fieldID

/-- A piece of the template at top level, where the dot is the slice of todos. -/
inductive Node where
  /-- Literal text. -/
  | text (s : String)
  /-- The action `{{range .}} body {{end}}`. -/
  | range (body : List Action)

/-- Execution of one piece for one todo. `text/template` prints the value of a
field as it is: a string unchanged, an integer in decimal. -/
def Action.exec (w : ResponseWriter) (dot : Todo) : Action → ResponseWriter
  | .text s => w.Write s
  | .fieldTitle => w.Write dot.Title
  | .fieldID => w.Write (toString dot.ID)

/-- Execution of the body of a range for one todo. -/
def execBody (body : List Action) (w : ResponseWriter) (dot : Todo) : ResponseWriter :=
  body.foldl (fun acc a => a.exec acc dot) w

/-- Execution of one top-level piece: a range runs its body once per element,
in order, and nothing for an empty slice. -/
def Node.exec (w : ResponseWriter) (todos : List Todo) : Node → ResponseWriter
  | .text s => w.Write s
  | .range body => todos.foldl (fun acc t => execBody body acc t) w

/-- Method `tmpl.Execute(w, todos)`. -/
def tmplExecute (tmpl : List Node) (w : ResponseWriter) (todos : List Todo) : ResponseWriter :=
  tmpl.foldl (fun acc n => n.exec acc todos) w

/-- Text of the template before `{{range .}}`. -/
def pageHead : String :=
  "\n <!DOCTYPE html>\n <html>\n <head>\n  <title>Todo List</title>\n </head>\n <body>\n" ++
  "  <h1>Todo List</h1>\n  <form action=\"/create\" method=\"POST\">\n" ++
  "   <input type=\"text\" name=\"title\" placeholder=\"New Todo\" required>\n" ++
  "   <button type=\"submit\">Add</button>\n  </form>\n  <ul>\n   "

/-- Text of the template after `{{end}}`. -/
def pageFoot : String := "\n  </ul>\n </body>\n </html>\n "

/-- The parsed template of `indexHandler`. -/
def indexTemplate : List Node :=
  [ .text pageHead,
    .range [ .text "\n   <li>", .fieldTitle, .text " <a href=\"/delete?id=", .fieldID,
             .text "\">Delete</a></li>\n   " ],
    .text pageFoot ]

/-! ## Handlers -/

/-- The loop `for rows.Next() { ... rows.Scan ... append }` of `indexHandler`:
the first failing scan ends it with the error. -/
def scanRows : List (Except String Todo) → List Todo → Except String (List Todo)
  | [], todos => .ok todos
  | .error err :: _, _ => .error err
  | .ok todo :: rest, todos => scanRows rest (todos ++ [todo])

/-- The slice `todos` that `indexHandler` builds, or the error it reports.
The error in `rows.Err` is not looked at. -/
def listTodos (fault : QueryFault) (db : DB) : Except String (List Todo) :=
  match dbQuery fault db with
  | .error err => .error err
  | .ok rows => scanRows rows.items []

/-- Function `indexHandler`: serves the main page and displays all todos. -/
def indexHandler (fault : QueryFault) (db : DB) (w : ResponseWriter) (_r : Request) :
    ResponseWriter × DB :=
  match dbQuery fault db with
  | .error err => (httpError w err StatusInternalServerError, db)
  | .ok rows =>
    match scanRows rows.items [] with
    | .error err => (httpError w err StatusInternalServerError, db)
    | .ok todos => (tmplExecute indexTemplate w todos, db)

/-- Function `createHandler`: handles the creation of a new todo. -/
def createHandler (fault : Option String) (db : DB) (w : ResponseWriter) (r : Request) :
    ResponseWriter × DB :=
  if r.Method = "POST" then
    let title := r.FormValue "title"
    match execInsert fault db title with
    | .error err => (httpError w err StatusInternalServerError, db)
    | .ok db1 => (httpRedirect w r "/" StatusSeeOther, db1)
  else (w, db)

/-- Function `deleteHandler`: handles the deletion of a todo. -/
def deleteHandler (idEq : String → Int → Bool) (fault : Option String) (db : DB)
    (w : ResponseWriter) (r : Request) : ResponseWriter × DB :=
  let id := r.QueryGet "id"
  match execDelete idEq fault db id with
  | .error err => (httpError w err StatusInternalServerError, db)
  | .ok db1 => (httpRedirect w r "/" StatusSeeOther, db1)

/-! ## Routing (`main`) -/

/-- The three handler functions registered in `main`. -/
inductive Handler where
  | index
  | create
  | delete
deriving DecidableEq

/-- State of a `ServeMux`: all registered patterns, and those ending in `/`
from longest to shortest. -/
structure ServeMux where
  m : List (String × Handler)
  es : List (String × Handler)
deriving DecidableEq

/-- Insertion into the list of patterns ending in `/`, longest first. -/
def appendSorted (es : List (String × Handler)) (e : String × Handler) :
    List (String × Handler) :=
  match es with
  | [] => [e]
  | x :: rest => if x.1.length < e.1.length then e :: x :: rest else x :: appendSorted rest e

/-- Call `http.HandleFunc(pattern, handler)`. -/
def ServeMux.HandleFunc (mux : ServeMux) (pattern : String) (h : Handler) : ServeMux :=
  { m := mux.m ++ [(pattern, h)],
    es := if pattern.data.getLast? = some '/' then appendSorted mux.es (pattern, h) else mux.es }

/-- The multiplexer after the three registrations of `main`. -/
def mainMux : ServeMux :=
  (((ServeMux.mk [] []).HandleFunc "/" .index).HandleFunc "/create" .create).HandleFunc
    "/delete" .delete

/-- Method `mux.match(path)`: an exact match first, then the longest pattern
ending in `/` that the path starts with; `none` stands for the not-found
handler. -/
def ServeMux.pathMatch (mux : ServeMux) (path : String) : Option Handler :=
  match mux.m.find? (fun e => e.1 = path) with
  | some e => some e.2
  | none =>
    match mux.es.find? (fun e => e.1.data.isPrefixOf path.data) with
    | some e => some e.2
    | none => none

/-- The elements of a path, which are separated by slashes. -/
def splitSlash : List Char → List (List Char)
  | [] => [[]]
  | c :: cs =>
    if c = '/' then [] :: splitSlash cs
    else
      match splitSlash cs with
      | [] => [[c]]
      | seg :: rest => (c :: seg) :: rest

/-- One element in `path.Clean` of a rooted path; `kept` holds the elements
kept so far, the last one first. An empty element and `.` are dropped, `..`
removes the last kept element (none at the root), any other element is kept. -/
def cleanStep (kept : List (List Char)) (seg : List Char) : List (List Char) :=
  if seg = [] ∨ seg = ['.'] then kept
  else if seg = ['.', '.'] then kept.tail
  else seg :: kept

/-- Function `path.Clean` on a rooted path (one that begins with `/`). -/
def pathClean (p : List Char) : List Char :=
  '/' :: List.intercalate ['/'] ((splitSlash p).foldl cleanStep []).reverse

/-- Function `cleanPath` of `net/http`: the canonical form of a request path,
rooted, without empty, `.` and `..` elements, a trailing slash preserved. -/
def cleanPath (p : String) : String :=
  if p = "" then "/"
  else
    let p1 := if p.data.head? ≠ some '/' then "/" ++ p else p
    let np := String.mk (pathClean p1.data)
    if p1.data.getLast? = some '/' ∧ np ≠ "/" then
      (if p1.length = np.length + 1 ∧ np.data.isPrefixOf p1.data = true then p1 else np ++ "/")
    else np

/-- Test of the multiplexer whether a path must be redirected to the path with
a slash appended: the path is not registered and the path followed by `/` is.
(The patterns of `main` carry no host, so the host of the request plays no
part.) -/
def ServeMux.shouldRedirect (mux : ServeMux) (path : String) : Bool :=
  if mux.m.any (fun e => e.1 = path) then false
  else if path.length = 0 then false
  else if mux.m.any (fun e => e.1 = path ++ "/") then path.data.getLast? ≠ some '/'
  else false

/-- What the multiplexer does with a request. -/
inductive Dispatch where
  /-- It calls the registered handler function. -/
  | handler (h : Handler)
  /-- It answers with a redirect to the path, calling no registered handler. -/
  | redirect (path : String)
  /-- It answers 404 (no pattern matches). -/
  | notFound
  /-- It answers 400 (request URI `*`). -/
  | badRequest
deriving DecidableEq

/-- Lookup result as a dispatch. -/
def ServeMux.lookup (mux : ServeMux) (path : String) : Dispatch :=
  match mux.pathMatch path with
  | some h => .handler h
  | none => .notFound

/-- Choice of the handler for a request (`mux.Handler(r)`): a CONNECT request
is looked up as it is; for any other request the path is cleaned first, and a
request whose path is not in canonical form is answered with a redirect to
the canonical path. -/
def ServeMux.findHandler (mux : ServeMux) (r : Request) : Dispatch :=
  if r.Method = "CONNECT" then
    if mux.shouldRedirect r.Path then .redirect (r.Path ++ "/") else mux.lookup r.Path
  else
    let path := cleanPath r.Path
    if mux.shouldRedirect path then .redirect (path ++ "/")
    else if path ≠ r.Path then .redirect path
    else mux.lookup r.Path

/-- Method `mux.ServeHTTP(w, r)`: the request URI `*` (the only request whose
path is `*`) is answered 400, any other request goes to the handler chosen
for it. -/
def ServeMux.ServeHTTP (mux : ServeMux) (r : Request) : Dispatch :=
  if r.Path = "*" then .badRequest else mux.findHandler r

/-! ## Runs -/

/-- One invocation of a handler: the handler, the request, and what the
environment does to the statement the handler issues. -/
inductive Call where
  | index (fault : QueryFault) (r : Request)
  | create (fault : Option String) (r : Request)
  | delete (fault : Option String) (r : Request)

/-- Response and next store state of one handler invocation on a new writer. -/
def Call.run (idEq : String → Int → Bool) (db : DB) : Call → ResponseWriter × DB
  | .index fault r => indexHandler fault db ResponseWriter.fresh r
  | .create fault r => createHandler fault db ResponseWriter.fresh r
  | .delete fault r => deleteHandler idEq fault db ResponseWriter.fresh r

/-- Store state after a sequence of handler invocations. -/
def runCalls (idEq : String → Int → Bool) : List Call → DB → DB
  | [], db => db
  | c :: cs, db => runCalls idEq cs (c.run idEq db).2

/-- A comparison for evaluating the definitions on concrete inputs: the text
is the decimal numeral of the key. -/
def decimalEq (x : String) (i : Int) : Bool := decide (x = toString i)

/-! ## Specification-side definitions -/

/-- The list entry the page shows for one todo: its title, then a delete link
whose target is `/delete?id=` followed by the id in decimal. -/
def listEntry (t : Todo) : String :=
  "\n   <li>" ++ t.Title ++ " <a href=\"/delete?id=" ++ toString t.ID ++ "\">Delete</a></li>\n   "

/-- The list entries of a sequence of todos, one after the other. -/
def listEntries : List Todo → String
  | [] => ""
  | t :: ts => listEntry t ++ listEntries ts

/-- The text occurs in the string. -/
def occursIn (pat s : String) : Prop := ∃ a b : String, s = a ++ pat ++ b

/-- Number of positions of a text at which the pattern starts. -/
def countOcc (pat : List Char) : List Char → Nat
  | [] => 0
  | c :: cs => (if pat.isPrefixOf (c :: cs) then 1 else 0) + countOcc pat cs

/-- Store state after a sequence of handler invocations each of which is
answered by the redirect that reports success; `none` when one is not. -/
def runChecked (idEq : String → Int → Bool) : List Call → DB → Option DB
  | [], db => some db
  | c :: cs, db =>
    if (c.run idEq db).1.status = some StatusSeeOther
    then runChecked idEq cs (c.run idEq db).2 else none

/-- The identifier a call of the delete handler names. -/
def Call.deleteId : Call → Option String
  | .delete _ r => some (r.QueryGet "id")
  | _ => none

/-- The call is a call of the delete handler. -/
def Call.isDelete : Call → Bool
  | .delete _ _ => true
  | _ => false

/-- The environment lets the statement of a delete call run. -/
def Call.deleteRuns : Call → Bool
  | .delete none _ => true
  | _ => false

/-- The identifiers named by the delete calls of a sequence, in order. -/
def deletesOf (calls : List Call) : List String := calls.filterMap Call.deleteId

/-- The id of the item is named by one of the identifiers. -/
def namedBy (idEq : String → Int → Bool) (ds : List String) (t : Todo) : Bool :=
  ds.any (fun x => idEq x t.ID)

/-- The item a call brings into being in a store state: a create call whose
insert finds a key makes the item with that key and the submitted title; any
other call makes none. -/
def Call.creates (db : DB) : Call → Option Todo
  | .create _ r =>
    match newRowid db with
    | some v => some { ID := v, Title := r.FormValue "title" }
    | none => none
  | .index _ _ => none
  | .delete _ _ => none

/-- The items created along a sequence of calls that starts in store state
`db`, each with the identifiers named by the deletes issued after its
creation. -/
def createdBy (idEq : String → Int → Bool) : DB → List Call → List (Todo × List String)
  | _, [] => []
  | db, c :: cs =>
    match c.creates db with
    | some t => (t, deletesOf cs) :: createdBy idEq (c.run idEq db).2 cs
    | none => createdBy idEq (c.run idEq db).2 cs

/-- The listing the specification expects after a sequence of successful
creates and deletes: the initial items and the created items, without those
whose id was named by a delete issued after the item came into being. -/
def expectedListing (idEq : String → Int → Bool) (db : DB) (calls : List Call) : List Todo :=
  db.rows.filter (fun t => !namedBy idEq (deletesOf calls) t) ++
    ((createdBy idEq db calls).filter (fun p => !namedBy idEq p.2 p.1)).map Prod.fst

/-- Ids present in the new table and absent from the old one: the ids an
operation assigned. -/
def newIds (old new : List Todo) : List Int :=
  (new.map Todo.ID).filter (fun i => decide (i ∉ old.map Todo.ID))

/-- Invariant of a store together with the log of the ids assigned so far: the
counter bounds every id of the log, every stored id is in the log, stored ids
are pairwise distinct, and the log is strictly increasing. -/
def LogInv (db : DB) (log : List Int) : Prop :=
  0 ≤ db.seq ∧ (∀ i ∈ log, i ≤ db.seq) ∧ (∀ t ∈ db.rows, t.ID ∈ log) ∧
    (db.rows.map Todo.ID).Nodup ∧ log.Pairwise (fun a b => a < b)

/-- Store state after a sequence of handler invocations, together with the log
of every id assigned on the way, in order of assignment. -/
def runLog (idEq : String → Int → Bool) : List Call → DB → List Int → DB × List Int
  | [], db, log => (db, log)
  | c :: cs, db, log =>
    runLog idEq cs (c.run idEq db).2 (log ++ newIds db.rows (c.run idEq db).2.rows)

/-! ## Lemmas on the response writer and the template -/

theorem body_Write (w : ResponseWriter) (s : String) : (w.Write s).body = w.body ++ s := by
  unfold ResponseWriter.Write ResponseWriter.WriteHeader
  cases w.status <;> rfl

theorem status_Write_fresh (w : ResponseWriter) (s : String) (h : w.status = none) :
    (w.Write s).status = some StatusOK := by
  unfold ResponseWriter.Write ResponseWriter.WriteHeader
  rw [h]

theorem status_Write_some (w : ResponseWriter) (s : String) (c : Nat) (h : w.status = some c) :
    (w.Write s).status = some c := by
  unfold ResponseWriter.Write ResponseWriter.WriteHeader
  rw [h]
  exact h

theorem header_Write (w : ResponseWriter) (s : String) : (w.Write s).header = w.header := by
  unfold ResponseWriter.Write ResponseWriter.WriteHeader
  cases w.status <;> rfl

theorem body_execBody (w : ResponseWriter) (t : Todo) :
    (execBody [ .text "\n   <li>", .fieldTitle, .text " <a href=\"/delete?id=", .fieldID,
      .text "\">Delete</a></li>\n   " ] w t).body = w.body ++ listEntry t := by
  simp only [execBody, List.foldl, Action.exec, body_Write, listEntry, String.append_assoc]

theorem status_execBody (body : List Action) (w : ResponseWriter) (t : Todo) (c : Nat)
    (h : w.status = some c) : (execBody body w t).status = some c := by
  unfold execBody
  induction body generalizing w with
  | nil => exact h
  | cons a rest ih =>
    simp only [List.foldl]
    apply ih
    cases a <;> exact status_Write_some _ _ _ h

theorem header_execBody (body : List Action) (w : ResponseWriter) (t : Todo) :
    (execBody body w t).header = w.header := by
  unfold execBody
  induction body generalizing w with
  | nil => rfl
  | cons a rest ih =>
    simp only [List.foldl]
    rw [ih]
    cases a <;> exact header_Write _ _

theorem body_range (w : ResponseWriter) (todos : List Todo) :
    (Node.exec w todos (.range [ .text "\n   <li>", .fieldTitle, .text " <a href=\"/delete?id=",
      .fieldID, .text "\">Delete</a></li>\n   " ])).body = w.body ++ listEntries todos := by
  simp only [Node.exec]
  induction todos generalizing w with
  | nil => simp [listEntries]
  | cons t ts ih =>
    simp only [List.foldl]
    rw [ih, body_execBody, listEntries, String.append_assoc]

theorem status_range (body : List Action) (w : ResponseWriter) (todos : List Todo) (c : Nat)
    (h : w.status = some c) : (Node.exec w todos (.range body)).status = some c := by
  simp only [Node.exec]
  induction todos generalizing w with
  | nil => exact h
  | cons t ts ih =>
    simp only [List.foldl]
    exact ih _ (status_execBody body w t c h)

theorem header_range (body : List Action) (w : ResponseWriter) (todos : List Todo) :
    (Node.exec w todos (.range body)).header = w.header := by
  simp only [Node.exec]
  induction todos generalizing w with
  | nil => rfl
  | cons t ts ih =>
    simp only [List.foldl]
    rw [ih, header_execBody]

theorem body_tmplExecute (w : ResponseWriter) (todos : List Todo) :
    (tmplExecute indexTemplate w todos).body
      = w.body ++ (pageHead ++ listEntries todos ++ pageFoot) := by
  simp only [tmplExecute, indexTemplate, List.foldl]
  rw [Node.exec, body_Write, body_range, Node.exec, body_Write]
  simp only [String.append_assoc]

theorem status_tmplExecute (todos : List Todo) :
    (tmplExecute indexTemplate ResponseWriter.fresh todos).status = some StatusOK := by
  simp only [tmplExecute, indexTemplate, List.foldl]
  rw [Node.exec]
  apply status_Write_some
  apply status_range
  rw [Node.exec]
  exact status_Write_fresh _ _ rfl

theorem header_tmplExecute (w : ResponseWriter) (todos : List Todo) :
    (tmplExecute indexTemplate w todos).header = w.header := by
  simp only [tmplExecute, indexTemplate, List.foldl]
  rw [Node.exec, header_Write, header_range, Node.exec, header_Write]

/-! ## Lemmas on the handlers -/

theorem scanRows_ok (l acc : List Todo) : scanRows (l.map .ok) acc = .ok (acc ++ l) := by
  induction l generalizing acc with
  | nil => simp [scanRows]
  | cons t ts ih => simp [scanRows, ih]

theorem scanRows_scanResults (e : String) (pre : List Todo) (t : Todo) (post acc : List Todo) :
    scanRows (scanResults e pre.length (pre ++ t :: post)) acc = .error e := by
  induction pre generalizing acc with
  | nil => simp [scanResults, scanRows]
  | cons p ps ih => simp [scanResults, scanRows, ih]

theorem listTodos_none (db : DB) : listTodos .none db = .ok db.rows := by
  simp [listTodos, dbQuery, scanRows_ok]

theorem status_httpError_fresh (e : String) (c : Nat) :
    (httpError ResponseWriter.fresh e c).status = some c := rfl

theorem body_httpError_fresh (e : String) (c : Nat) :
    (httpError ResponseWriter.fresh e c).body = e ++ "\n" := by
  simp [httpError, body_Write, ResponseWriter.WriteHeader, ResponseWriter.setHeader,
    ResponseWriter.fresh]

theorem location_httpError_fresh (e : String) (c : Nat) :
    (httpError ResponseWriter.fresh e c).getHeader "Location" = none := by
  simp [httpError, header_Write, ResponseWriter.WriteHeader, ResponseWriter.setHeader,
    ResponseWriter.fresh, ResponseWriter.getHeader, List.lookup]

theorem status_httpRedirect_fresh (r : Request) (url : String) (c : Nat) :
    (httpRedirect ResponseWriter.fresh r url c).status = some c := by
  unfold httpRedirect
  simp only [ResponseWriter.getHeader, ResponseWriter.fresh, List.lookup, Option.isSome]
  split <;> split <;> rfl

theorem location_httpRedirect_fresh (r : Request) (url : String) (c : Nat) :
    (httpRedirect ResponseWriter.fresh r url c).getHeader "Location" = some url := by
  unfold httpRedirect
  simp only [ResponseWriter.getHeader, ResponseWriter.fresh, List.lookup, Option.isSome]
  split <;> split <;>
    simp [header_Write, ResponseWriter.WriteHeader, ResponseWriter.setHeader, List.lookup]

/-! ## Lemmas on the store -/

theorem lastRowid_none {rows : List Todo} (h : lastRowid rows = none) : rows = [] := by
  cases rows with
  | nil => rfl
  | cons t ts =>
    simp only [lastRowid] at h
    split at h <;> simp at h

theorem le_lastRowid {rows : List Todo} {m : Int} (h : lastRowid rows = some m) :
    ∀ t ∈ rows, t.ID ≤ m := by
  induction rows generalizing m with
  | nil => simp
  | cons a ts ih =>
    simp only [lastRowid] at h
    intro t ht
    split at h
    · rename_i hn
      have := lastRowid_none hn
      subst this
      simp at ht h
      subst ht; omega
    · rename_i m1 hm
      simp at h
      rcases List.mem_cons.mp ht with rfl | ht
      · omega
      · have := ih hm t ht
        omega

/-- A key handed out is larger than the counter and than every key in the table. -/
theorem newRowid_gt {db : DB} {v : Int} (h : newRowid db = some v) :
    db.seq < v ∧ ∀ t ∈ db.rows, t.ID < v := by
  unfold newRowid at h
  split at h
  · rename_i hn
    have := lastRowid_none hn
    split at h
    · simp at h
    · simp at h
      rw [this]
      constructor
      · omega
      · simp
  · rename_i m hm
    split at h
    · simp at h
    · simp at h
      refine ⟨by omega, fun t ht => ?_⟩
      have := le_lastRowid hm t ht
      omega

/-! ## Steps of the handlers -/

theorem createHandler_success {fault : Option String} {db : DB} {r : Request}
    (h : (createHandler fault db ResponseWriter.fresh r).1.status = some StatusSeeOther) :
    r.Method = "POST" ∧ fault = none ∧ ∃ v, newRowid db = some v ∧
      (createHandler fault db ResponseWriter.fresh r).2
        = { rows := db.rows ++ [{ ID := v, Title := r.FormValue "title" }], seq := v } := by
  unfold createHandler at h ⊢
  by_cases hm : r.Method = "POST"
  · simp only [hm, if_true] at h ⊢
    cases fault with
    | some e =>
      simp only [execInsert, status_httpError_fresh] at h
      simp [StatusInternalServerError, StatusSeeOther] at h
    | none =>
      cases hv : newRowid db with
      | none =>
        simp only [execInsert, hv, status_httpError_fresh] at h
        simp [StatusInternalServerError, StatusSeeOther] at h
      | some v =>
        simp only [execInsert, hv]
        exact ⟨by trivial, by trivial, v, by trivial, by trivial⟩
  · simp only [hm, if_false] at h
    simp [ResponseWriter.fresh] at h

theorem deleteHandler_success {idEq : String → Int → Bool} {fault : Option String} {db : DB}
    {r : Request}
    (h : (deleteHandler idEq fault db ResponseWriter.fresh r).1.status = some StatusSeeOther) :
    fault = none := by
  cases fault with
  | none => rfl
  | some e =>
    simp only [deleteHandler, execDelete, status_httpError_fresh] at h
    simp [StatusInternalServerError, StatusSeeOther] at h

theorem deleteHandler_none (idEq : String → Int → Bool) (db : DB) (r : Request) :
    deleteHandler idEq none db ResponseWriter.fresh r
      = (httpRedirect ResponseWriter.fresh r "/" StatusSeeOther,
         { db with rows := db.rows.filter (fun t => !idEq (r.QueryGet "id") t.ID) }) := rfl

theorem indexHandler_store (fault : QueryFault) (db : DB) (w : ResponseWriter) (r : Request) :
    (indexHandler fault db w r).2 = db := by
  unfold indexHandler
  split
  · rfl
  · split <;> rfl

theorem indexHandler_status (fault : QueryFault) (db : DB) (r : Request) :
    (indexHandler fault db ResponseWriter.fresh r).1.status = some StatusInternalServerError ∨
    (indexHandler fault db ResponseWriter.fresh r).1.status = some StatusOK := by
  unfold indexHandler
  split
  · exact Or.inl (status_httpError_fresh _ _)
  · split
    · exact Or.inl (status_httpError_fresh _ _)
    · exact Or.inr (status_tmplExecute _)

theorem indexHandler_none (db : DB) (r : Request) :
    indexHandler .none db ResponseWriter.fresh r
      = (tmplExecute indexTemplate ResponseWriter.fresh db.rows, db) := by
  simp [indexHandler, dbQuery, scanRows_ok]

theorem indexHandler_next (k : Nat) (e : String) (db : DB) (r : Request) :
    indexHandler (.next k e) db ResponseWriter.fresh r
      = (tmplExecute indexTemplate ResponseWriter.fresh (db.rows.take k), db) := by
  simp only [indexHandler, dbQuery, scanRows_ok, List.nil_append]

theorem body_tmplExecute_fresh (todos : List Todo) :
    (tmplExecute indexTemplate ResponseWriter.fresh todos).body
      = pageHead ++ listEntries todos ++ pageFoot := by
  rw [body_tmplExecute]
  simp [ResponseWriter.fresh]

/-! ## Properties of the handlers -/

/-- C1: after a create request answered by the success redirect, the slice the
index handler builds is the previous one followed by exactly one new item; the
new item carries the submitted title (whatever it is, the empty string
included) and an id that no previously listed item has, and the previous items
are all still there, unchanged and in place. -/
theorem create_then_list (fault : Option String) (db : DB) (r : Request)
    (hok : (createHandler fault db ResponseWriter.fresh r).1.status = some StatusSeeOther) :
    ∃ id : Int,
      (∀ t ∈ db.rows, t.ID ≠ id) ∧
      listTodos .none db = .ok db.rows ∧
      listTodos .none (createHandler fault db ResponseWriter.fresh r).2
        = .ok (db.rows ++ [{ ID := id, Title := r.FormValue "title" }]) := by
  obtain ⟨_, _, v, hv, hdb⟩ := createHandler_success hok
  refine ⟨v, fun t ht => ?_, listTodos_none db, ?_⟩
  · have := (newRowid_gt hv).2 t ht
    omega
  · rw [hdb, listTodos_none]

/-- Instance of C1: creating "Buy milk" in a store that holds item 4. -/
theorem create_then_list_witness :
    (createHandler none { rows := [{ ID := 4, Title := "old" }], seq := 7 }
        ResponseWriter.fresh
        { Method := "POST", Path := "/create", Query := [],
          PostForm := [("title", "Buy milk")] }).1.status = some StatusSeeOther ∧
    ∃ id : Int,
      (∀ t ∈ [({ ID := 4, Title := "old" } : Todo)], t.ID ≠ id) ∧
      listTodos .none { rows := [{ ID := 4, Title := "old" }], seq := 7 }
        = .ok [{ ID := 4, Title := "old" }] ∧
      listTodos .none (createHandler none { rows := [{ ID := 4, Title := "old" }], seq := 7 }
          ResponseWriter.fresh
          { Method := "POST", Path := "/create", Query := [],
            PostForm := [("title", "Buy milk")] }).2
        = .ok ([{ ID := 4, Title := "old" }] ++ [{ ID := id, Title := "Buy milk" }]) :=
  ⟨by decide,
   create_then_list none { rows := [{ ID := 4, Title := "old" }], seq := 7 }
    { Method := "POST", Path := "/create", Query := [], PostForm := [("title", "Buy milk")] }
    (by decide)⟩

/-- C2: when the engine runs the delete statement, for every store state and
every identifier text in the query string the delete handler answers with the
success redirect, and the listing afterwards is the previous listing without
the items whose id the engine finds equal to the identifier, the other items
unchanged; when no id matches, the listing is the same as before and the
answer is still the success redirect. -/
theorem delete_then_list (idEq : String → Int → Bool) (db : DB) (r : Request) :
    (deleteHandler idEq none db ResponseWriter.fresh r).1.status = some StatusSeeOther ∧
    (deleteHandler idEq none db ResponseWriter.fresh r).1.getHeader "Location" = some "/" ∧
    listTodos .none (deleteHandler idEq none db ResponseWriter.fresh r).2
      = .ok (db.rows.filter (fun t => !idEq (r.QueryGet "id") t.ID)) ∧
    ((db.rows.all fun t => !idEq (r.QueryGet "id") t.ID) = true →
      listTodos .none (deleteHandler idEq none db ResponseWriter.fresh r).2
        = listTodos .none db) := by
  rw [deleteHandler_none]
  refine ⟨status_httpRedirect_fresh _ _ _, location_httpRedirect_fresh _ _ _,
    listTodos_none _, fun h => ?_⟩
  rw [listTodos_none, listTodos_none]
  congr 1
  simp only
  rw [List.filter_eq_self]
  intro t ht
  exact List.all_eq_true.mp h t ht

/-- Instance of C2: deleting the non-numeric id "abc" from a store of two
items leaves both. -/
theorem delete_then_list_witness :
    ([({ ID := 1, Title := "a" } : Todo), { ID := 2, Title := "b" }].all
        fun t => !decimalEq "abc" t.ID) = true ∧
    listTodos .none (deleteHandler decimalEq none
        { rows := [{ ID := 1, Title := "a" }, { ID := 2, Title := "b" }], seq := 2 }
        ResponseWriter.fresh
        { Method := "GET", Path := "/delete", Query := [("id", "abc")], PostForm := [] }).2
      = listTodos .none
        { rows := [{ ID := 1, Title := "a" }, { ID := 2, Title := "b" }], seq := 2 } :=
  ⟨by decide,
   (delete_then_list decimalEq
    { rows := [{ ID := 1, Title := "a" }, { ID := 2, Title := "b" }], seq := 2 }
    { Method := "GET", Path := "/delete", Query := [("id", "abc")], PostForm := [] }).2.2.2
    (by decide)⟩

/-- C3, evaluated: the page for a store holding the title
`<script>alert(1)</script>` carries the title as it is; `text/template` does
not escape `<` and `>`. -/
theorem script_title_is_rendered_raw :
    (indexHandler .none { rows := [{ ID := 1, Title := "<script>alert(1)</script>" }], seq := 1 }
        ResponseWriter.fresh
        { Method := "GET", Path := "/", Query := [], PostForm := [] }).1.body
      = pageHead ++
        "\n   <li><script>alert(1)</script> <a href=\"/delete?id=1\">Delete</a></li>\n   " ++
        pageFoot := by
  rw [indexHandler_none, body_tmplExecute_fresh]
  have h : listEntries [{ ID := 1, Title := "<script>alert(1)</script>" }]
      = "\n   <li><script>alert(1)</script> <a href=\"/delete?id=1\">Delete</a></li>\n   " := by
    decide
  rw [h]

/-- C4 as stated fails: when the insert fails with the text `disk I/O error`,
the body of the 500 response is that text followed by a line feed, not the
text itself. -/
theorem create_error_body_counterexample :
    (createHandler (some "disk I/O error") initDB ResponseWriter.fresh
        { Method := "POST", Path := "/create", Query := [],
          PostForm := [("title", "x")] }).1.status = some 500 ∧
    (createHandler (some "disk I/O error") initDB ResponseWriter.fresh
        { Method := "POST", Path := "/create", Query := [],
          PostForm := [("title", "x")] }).1.body = "disk I/O error\n" ∧
    (createHandler (some "disk I/O error") initDB ResponseWriter.fresh
        { Method := "POST", Path := "/create", Query := [],
          PostForm := [("title", "x")] }).1.body ≠ "disk I/O error" := by
  decide

/-- C4, amended: for a POST request to the create handler and for any request
to the delete handler, when the storage statement succeeds the response has
status 303 and `Location` `/`; when it fails the response has status 500, its
body is the text of the storage error followed by a line feed, and there is no
`Location`; each request gets exactly one of the two. -/
theorem write_handlers_response (idEq : String → Int → Bool) (fault : Option String)
    (db : DB) (r : Request) :
    (r.Method = "POST" →
      ((∃ db1, execInsert fault db (r.FormValue "title") = .ok db1 ∧
          (createHandler fault db ResponseWriter.fresh r).2 = db1 ∧
          (createHandler fault db ResponseWriter.fresh r).1.status = some 303 ∧
          (createHandler fault db ResponseWriter.fresh r).1.getHeader "Location" = some "/") ∨
       (∃ e, execInsert fault db (r.FormValue "title") = .error e ∧
          (createHandler fault db ResponseWriter.fresh r).2 = db ∧
          (createHandler fault db ResponseWriter.fresh r).1.status = some 500 ∧
          (createHandler fault db ResponseWriter.fresh r).1.body = e ++ "\n" ∧
          (createHandler fault db ResponseWriter.fresh r).1.getHeader "Location" = none))) ∧
    ((∃ db1, execDelete idEq fault db (r.QueryGet "id") = .ok db1 ∧
        (deleteHandler idEq fault db ResponseWriter.fresh r).2 = db1 ∧
        (deleteHandler idEq fault db ResponseWriter.fresh r).1.status = some 303 ∧
        (deleteHandler idEq fault db ResponseWriter.fresh r).1.getHeader "Location"
          = some "/") ∨
     (∃ e, execDelete idEq fault db (r.QueryGet "id") = .error e ∧
        (deleteHandler idEq fault db ResponseWriter.fresh r).2 = db ∧
        (deleteHandler idEq fault db ResponseWriter.fresh r).1.status = some 500 ∧
        (deleteHandler idEq fault db ResponseWriter.fresh r).1.body = e ++ "\n" ∧
        (deleteHandler idEq fault db ResponseWriter.fresh r).1.getHeader "Location" = none)) := by
  constructor
  · intro hm
    unfold createHandler
    simp only [hm, if_true]
    cases hx : execInsert fault db (r.FormValue "title") with
    | error e =>
      exact Or.inr ⟨e, rfl, rfl, status_httpError_fresh _ _, body_httpError_fresh _ _,
        location_httpError_fresh _ _⟩
    | ok db1 =>
      exact Or.inl ⟨db1, rfl, rfl, status_httpRedirect_fresh _ _ _,
        location_httpRedirect_fresh _ _ _⟩
  · simp only [deleteHandler]
    cases hx : execDelete idEq fault db (r.QueryGet "id") with
    | error e =>
      exact Or.inr ⟨e, rfl, rfl, status_httpError_fresh _ _, body_httpError_fresh _ _,
        location_httpError_fresh _ _⟩
    | ok db1 =>
      exact Or.inl ⟨db1, rfl, rfl, status_httpRedirect_fresh _ _ _,
        location_httpRedirect_fresh _ _ _⟩

/-- Instance of amended C4: a POST to the create handler on the new store,
with and without a storage error. -/
theorem write_handlers_response_witness :
    ("POST" = "POST") ∧
    ((∃ db1, execInsert none initDB "x" = .ok db1 ∧
        (createHandler none initDB ResponseWriter.fresh
          { Method := "POST", Path := "/create", Query := [],
            PostForm := [("title", "x")] }).2 = db1 ∧
        (createHandler none initDB ResponseWriter.fresh
          { Method := "POST", Path := "/create", Query := [],
            PostForm := [("title", "x")] }).1.status = some 303 ∧
        (createHandler none initDB ResponseWriter.fresh
          { Method := "POST", Path := "/create", Query := [],
            PostForm := [("title", "x")] }).1.getHeader "Location" = some "/") ∨
     (∃ e, execInsert none initDB "x" = .error e ∧
        (createHandler none initDB ResponseWriter.fresh
          { Method := "POST", Path := "/create", Query := [],
            PostForm := [("title", "x")] }).2 = initDB ∧
        (createHandler none initDB ResponseWriter.fresh
          { Method := "POST", Path := "/create", Query := [],
            PostForm := [("title", "x")] }).1.status = some 500 ∧
        (createHandler none initDB ResponseWriter.fresh
          { Method := "POST", Path := "/create", Query := [],
            PostForm := [("title", "x")] }).1.body = e ++ "\n" ∧
        (createHandler none initDB ResponseWriter.fresh
          { Method := "POST", Path := "/create", Query := [],
            PostForm := [("title", "x")] }).1.getHeader "Location" = none)) :=
  ⟨rfl, (write_handlers_response decimalEq none initDB
    { Method := "POST", Path := "/create", Query := [], PostForm := [("title", "x")] }).1 rfl⟩

/-- C5 as stated fails: when the select-all query fails with the text
`database is locked`, the body of the 500 response is that text followed by a
line feed, not the text itself. -/
theorem index_error_body_counterexample :
    (indexHandler (.query "database is locked") initDB ResponseWriter.fresh
        { Method := "GET", Path := "/", Query := [], PostForm := [] }).1.status = some 500 ∧
    (indexHandler (.query "database is locked") initDB ResponseWriter.fresh
        { Method := "GET", Path := "/", Query := [], PostForm := [] }).1.body
      = "database is locked\n" ∧
    (indexHandler (.query "database is locked") initDB ResponseWriter.fresh
        { Method := "GET", Path := "/", Query := [], PostForm := [] }).1.body
      ≠ "database is locked" := by
  decide

/-- The index handler does not look at `rows.Err`: when the iteration stops
after the first of two rows because of an error, the response is 200 and the
page lists the first row only. -/
theorem index_ignores_iteration_error :
    (indexHandler (.next 1 "database is locked")
        { rows := [{ ID := 1, Title := "a" }, { ID := 2, Title := "b" }], seq := 2 }
        ResponseWriter.fresh
        { Method := "GET", Path := "/", Query := [], PostForm := [] }).1.status = some 200 ∧
    (indexHandler (.next 1 "database is locked")
        { rows := [{ ID := 1, Title := "a" }, { ID := 2, Title := "b" }], seq := 2 }
        ResponseWriter.fresh
        { Method := "GET", Path := "/", Query := [], PostForm := [] }).1.body
      = pageHead ++ listEntries [{ ID := 1, Title := "a" }] ++ pageFoot := by
  rw [indexHandler_next]
  exact ⟨status_tmplExecute _, body_tmplExecute_fresh _⟩

/-- C5, amended: the index handler answers 500 with the error text followed by
a line feed as body when the select-all query fails or the scan of one of its
rows fails; when the query and the reading of all rows succeed it answers 200
with the rendering of all stored items as body, also for an empty store, whose
listing is the empty sequence; and it never changes the store. -/
theorem index_response (db : DB) (r : Request) :
    (∀ e, (indexHandler (.query e) db ResponseWriter.fresh r).1.status = some 500 ∧
        (indexHandler (.query e) db ResponseWriter.fresh r).1.body = e ++ "\n") ∧
    (∀ (pre : List Todo) (t : Todo) (post : List Todo) (seq : Int) (e : String),
        (indexHandler (.scan pre.length e) { rows := pre ++ t :: post, seq := seq }
          ResponseWriter.fresh r).1.status = some 500 ∧
        (indexHandler (.scan pre.length e) { rows := pre ++ t :: post, seq := seq }
          ResponseWriter.fresh r).1.body = e ++ "\n") ∧
    ((indexHandler .none db ResponseWriter.fresh r).1.status = some 200 ∧
      listTodos .none db = .ok db.rows ∧
      (indexHandler .none db ResponseWriter.fresh r).1.body
        = pageHead ++ listEntries db.rows ++ pageFoot) ∧
    (∀ seq : Int, listTodos .none { rows := [], seq := seq } = .ok [] ∧
      (indexHandler .none { rows := [], seq := seq } ResponseWriter.fresh r).1.status
        = some 200 ∧
      (indexHandler .none { rows := [], seq := seq } ResponseWriter.fresh r).1.body
        = pageHead ++ pageFoot) ∧
    (∀ (fault : QueryFault) (w : ResponseWriter), (indexHandler fault db w r).2 = db) := by
  have hnone := fun d : DB => indexHandler_none d r
  refine ⟨fun e => ⟨rfl, ?_⟩, fun pre t post seq e => ?_, ⟨?_, listTodos_none db, ?_⟩,
    fun seq => ⟨rfl, ?_, ?_⟩, fun fault w => indexHandler_store fault db w r⟩
  · simp only [indexHandler, dbQuery]
    exact body_httpError_fresh _ _
  · simp only [indexHandler, dbQuery, scanRows_scanResults]
    exact ⟨rfl, body_httpError_fresh _ _⟩
  · rw [hnone]
    exact status_tmplExecute _
  · rw [hnone, body_tmplExecute]
    simp [ResponseWriter.fresh]
  · rw [hnone]
    exact status_tmplExecute _
  · rw [hnone, body_tmplExecute]
    simp [ResponseWriter.fresh, listEntries]

theorem mainMux_eq :
    mainMux = { m := [("/", .index), ("/create", .create), ("/delete", .delete)],
                es := [("/", .index)] } := by
  decide

/-- Structure of the executed template: the head of the page, then one piece
of text per todo in the order of the sequence, then the foot; the fixed text
(head and foot) holds the page title, one form posting to `/create` with the
text input named `title`, and one unordered list; the piece for a todo is its
title as it is, followed by a delete link to `/delete?id=` and the id in
decimal. -/
theorem page_structure (todos : List Todo) :
    (tmplExecute indexTemplate ResponseWriter.fresh todos).body
      = pageHead ++ listEntries todos ++ pageFoot ∧
    (tmplExecute indexTemplate ResponseWriter.fresh []).body = pageHead ++ pageFoot ∧
    (∀ (t : Todo) (ts : List Todo), listEntries (t :: ts) = listEntry t ++ listEntries ts) ∧
    (∀ t : Todo, listEntry t
      = "\n   <li>" ++ t.Title ++ " <a href=\"/delete?id=" ++ toString t.ID
          ++ "\">Delete</a></li>\n   ") ∧
    occursIn "<title>Todo List</title>" pageHead ∧
    occursIn ("<form action=\"/create\" method=\"POST\">\n" ++
      "   <input type=\"text\" name=\"title\" placeholder=\"New Todo\" required>\n" ++
      "   <button type=\"submit\">Add</button>\n  </form>") pageHead ∧
    countOcc "<form".data (pageHead ++ pageFoot).data = 1 ∧
    countOcc "<ul>".data (pageHead ++ pageFoot).data = 1 ∧
    (∃ a : String, pageHead = a ++ "<ul>\n   ") ∧
    (∃ b : String, pageFoot = "\n  </ul>" ++ b) := by
  refine ⟨body_tmplExecute_fresh todos, ?_, fun _ _ => rfl, fun _ => rfl, ?_, ?_, ?_, ?_, ?_, ?_⟩
  · rw [body_tmplExecute_fresh]
    simp [listEntries]
  · exact ⟨"\n <!DOCTYPE html>\n <html>\n <head>\n  ",
      "\n </head>\n <body>\n  <h1>Todo List</h1>\n  <form action=\"/create\" method=\"POST\">\n" ++
      "   <input type=\"text\" name=\"title\" placeholder=\"New Todo\" required>\n" ++
      "   <button type=\"submit\">Add</button>\n  </form>\n  <ul>\n   ", by decide⟩
  · exact ⟨"\n <!DOCTYPE html>\n <html>\n <head>\n  <title>Todo List</title>\n </head>\n" ++
      " <body>\n  <h1>Todo List</h1>\n  ", "\n  <ul>\n   ", by decide⟩
  · decide
  · decide
  · exact ⟨"\n <!DOCTYPE html>\n <html>\n <head>\n  <title>Todo List</title>\n </head>\n" ++
      " <body>\n  <h1>Todo List</h1>\n  <form action=\"/create\" method=\"POST\">\n" ++
      "   <input type=\"text\" name=\"title\" placeholder=\"New Todo\" required>\n" ++
      "   <button type=\"submit\">Add</button>\n  </form>\n  ", by decide⟩
  · exact ⟨"\n </body>\n </html>\n ", by decide⟩

/-- C6, evaluated: the page for the single item whose title is
`x <a href="/delete?id=2">Delete</a></li>`, white space, `<li>y` is, byte for
byte, the page for the two items (2, x) and (1, y): it shows two list entries
for one item, the first with a delete link to id 2, which is not the id of
the item. And the page for the single item with title `<form action="/x">`
holds two forms. The title is written without escaping. -/
theorem crafted_title_adds_list_entry :
    (indexHandler .none
        { rows := [{ ID := 1,
                     Title := "x <a href=\"/delete?id=2\">Delete</a></li>\n   \n   <li>y" }],
          seq := 1 }
        ResponseWriter.fresh
        { Method := "GET", Path := "/", Query := [], PostForm := [] }).1.body
      = (indexHandler .none
        { rows := [{ ID := 2, Title := "x" }, { ID := 1, Title := "y" }], seq := 2 }
        ResponseWriter.fresh
        { Method := "GET", Path := "/", Query := [], PostForm := [] }).1.body ∧
    countOcc "<li>".data
      (indexHandler .none
        { rows := [{ ID := 1,
                     Title := "x <a href=\"/delete?id=2\">Delete</a></li>\n   \n   <li>y" }],
          seq := 1 }
        ResponseWriter.fresh
        { Method := "GET", Path := "/", Query := [], PostForm := [] }).1.body.data = 2 ∧
    countOcc "<form".data
      (indexHandler .none
        { rows := [{ ID := 1, Title := "<form action=\"/x\">" }], seq := 1 }
        ResponseWriter.fresh
        { Method := "GET", Path := "/", Query := [], PostForm := [] }).1.body.data = 2 := by
  refine ⟨?_, ?_, ?_⟩
  · rw [indexHandler_none, indexHandler_none, body_tmplExecute_fresh, body_tmplExecute_fresh]
    have h : listEntries [⟨1, "x <a href=\"/delete?id=2\">Delete</a></li>\n   \n   <li>y"⟩]
        = listEntries [⟨2, "x"⟩, ⟨1, "y"⟩] := by
      decide
    rw [h]
  · rw [indexHandler_none, body_tmplExecute_fresh]
    decide
  · rw [indexHandler_none, body_tmplExecute_fresh]
    decide

/-- C9: for a request whose method is not POST the create handler returns the
writer as it received it (no status, no body, no header) and the store as it
was, so the listing is the same as before. -/
theorem create_ignores_other_methods (fault : Option String) (db : DB) (w : ResponseWriter)
    (r : Request) (h : r.Method ≠ "POST") :
    createHandler fault db w r = (w, db) ∧
    (createHandler fault db ResponseWriter.fresh r).1.status = none ∧
    (createHandler fault db ResponseWriter.fresh r).1.body = "" ∧
    (createHandler fault db ResponseWriter.fresh r).1.header = [] ∧
    listTodos .none (createHandler fault db w r).2 = listTodos .none db := by
  have hw : ∀ w0, createHandler fault db w0 r = (w0, db) := by
    intro w0
    simp [createHandler, h]
  rw [hw, hw]
  exact ⟨rfl, rfl, rfl, rfl, rfl⟩

/-- Instance of C9: a GET request to the create handler carrying a title. -/
theorem create_ignores_other_methods_witness :
    "GET" ≠ "POST" ∧
    (createHandler none initDB ResponseWriter.fresh
      { Method := "GET", Path := "/create", Query := [("title", "x")], PostForm := [] }).1.status
      = none ∧
    (createHandler none initDB ResponseWriter.fresh
      { Method := "GET", Path := "/create", Query := [("title", "x")], PostForm := [] }).2.rows
      = [] :=
  ⟨by decide,
   (create_ignores_other_methods none initDB ResponseWriter.fresh
      { Method := "GET", Path := "/create", Query := [("title", "x")], PostForm := [] }
      (by decide)).2.1,
   by decide⟩

theorem pathMatch_mainMux (path : String) :
    mainMux.pathMatch path =
      (if path = "/create" then some Handler.create
       else if path = "/delete" then some Handler.delete
       else if "/".data.isPrefixOf path.data then some Handler.index
       else none) := by
  rw [mainMux_eq]
  simp only [ServeMux.pathMatch, List.find?]
  by_cases h1 : path = "/"
  · subst h1
    decide
  · by_cases h2 : path = "/create"
    · subst h2
      decide
    · by_cases h3 : path = "/delete"
      · subst h3
        decide
      · have e1 : decide ("/" = path) = false := by simpa using fun h => h1 h.symm
        have e2 : decide ("/create" = path) = false := by simpa using fun h => h2 h.symm
        have e3 : decide ("/delete" = path) = false := by simpa using fun h => h3 h.symm
        simp only [e1, e2, e3, h2, h3, if_false]
        cases hp : "/".data.isPrefixOf path.data <;> simp

theorem getLast_append_slash (path : String) :
    (path ++ "/").data.getLast? = some '/' := by
  simp [String.data_append]

/-- No path is redirected to itself with a slash appended: the only registered
pattern that ends in `/` is `/` itself. -/
theorem shouldRedirect_mainMux (path : String) : mainMux.shouldRedirect path = false := by
  rw [mainMux_eq]
  unfold ServeMux.shouldRedirect
  split
  · rfl
  · split
    · rfl
    · rename_i hlen
      split
      · rename_i hany
        exfalso
        simp only [List.any_cons, List.any_nil, Bool.or_false, Bool.or_eq_true,
          decide_eq_true_eq] at hany
        have hl := getLast_append_slash path
        rcases hany with h | h | h
        · apply hlen
          have hd : (path ++ "/").data = "/".data := by rw [← h]
          rw [String.data_append] at hd
          have hlen2 := congrArg List.length hd
          rw [List.length_append] at hlen2
          have h1 : "/".data.length = 1 := rfl
          rw [h1] at hlen2
          show path.data.length = 0
          omega
        · rw [← h] at hl
          revert hl
          decide
        · rw [← h] at hl
          revert hl
          decide
      · rfl

theorem lookup_mainMux (path : String) :
    mainMux.lookup path =
      (if path = "/create" then .handler Handler.create
       else if path = "/delete" then .handler Handler.delete
       else if "/".data.isPrefixOf path.data then .handler Handler.index
       else .notFound) := by
  unfold ServeMux.lookup
  rw [pathMatch_mainMux]
  split_ifs <;> rfl

/-- C10 as stated fails: a request with path `/foo`, which is none of the three
registered paths, is dispatched to the index handler. -/
theorem other_path_counterexample :
    mainMux.ServeHTTP { Method := "GET", Path := "/foo", Query := [], PostForm := [] }
      = .handler Handler.index := by
  decide

/-- C10, amended: a request with path `/` is dispatched to the index handler,
with path `/create` to the create handler and with path `/delete` to the
delete handler; a request with any other path that begins with `/` and is in
canonical form (or whose method is CONNECT, for which paths are not cleaned)
is dispatched to the index handler as well, because the pattern `/` matches
every such path; a request whose path is not in canonical form is answered
with a redirect to the canonical path and reaches no handler; and no path
other than `/create` and `/delete` reaches the create or the delete handler. -/
theorem routes_of_main (r : Request) :
    (r.Path = "/" → mainMux.ServeHTTP r = .handler Handler.index) ∧
    (r.Path = "/create" → mainMux.ServeHTTP r = .handler Handler.create) ∧
    (r.Path = "/delete" → mainMux.ServeHTTP r = .handler Handler.delete) ∧
    (r.Path ≠ "/create" → r.Path ≠ "/delete" → "/".data.isPrefixOf r.Path.data = true →
      (r.Method = "CONNECT" ∨ cleanPath r.Path = r.Path) →
      mainMux.ServeHTTP r = .handler Handler.index) ∧
    (r.Method ≠ "CONNECT" → r.Path ≠ "*" → cleanPath r.Path ≠ r.Path →
      mainMux.ServeHTTP r = .redirect (cleanPath r.Path)) ∧
    (r.Path ≠ "/create" → r.Path ≠ "/delete" →
      mainMux.ServeHTTP r ≠ .handler Handler.create ∧
      mainMux.ServeHTTP r ≠ .handler Handler.delete) := by
  have hfix : ∀ p : String, p ≠ "*" → (r.Method = "CONNECT" ∨ cleanPath p = p) → r.Path = p →
      mainMux.ServeHTTP r = mainMux.lookup p := by
    intro p hstar hc hp
    unfold ServeMux.ServeHTTP ServeMux.findHandler
    simp only [hp, hstar, if_false, shouldRedirect_mainMux]
    by_cases hm : r.Method = "CONNECT"
    · simp [hm]
    · rcases hc with hc | hc
      · exact absurd hc hm
      · simp [hm, hc]
  refine ⟨fun h => ?_, fun h => ?_, fun h => ?_, fun h1 h2 hp hc => ?_, fun hm hs hc => ?_,
    fun h1 h2 => ?_⟩
  · rw [hfix "/" (by decide) (Or.inr (by decide)) h]
    decide
  · rw [hfix "/create" (by decide) (Or.inr (by decide)) h]
    decide
  · rw [hfix "/delete" (by decide) (Or.inr (by decide)) h]
    decide
  · have hstar : r.Path ≠ "*" := by
      intro hs
      rw [hs] at hp
      revert hp
      decide
    rw [hfix r.Path hstar hc rfl, lookup_mainMux]
    simp [h1, h2, hp]
  · unfold ServeMux.ServeHTTP ServeMux.findHandler
    simp [hs, hm, hc, shouldRedirect_mainMux]
  · unfold ServeMux.ServeHTTP ServeMux.findHandler
    simp only [shouldRedirect_mainMux, lookup_mainMux, h1, h2]
    constructor <;> (repeat' split) <;> first | contradiction | simp

/-- Instance of amended C10: the canonical path `/foo` reaches the index
handler; the path `//foo` is redirected to `/foo`. -/
theorem routes_of_main_witness :
    cleanPath "/foo" = "/foo" ∧
    mainMux.ServeHTTP { Method := "GET", Path := "/foo", Query := [], PostForm := [] }
      = .handler Handler.index ∧
    cleanPath "//foo" ≠ "//foo" ∧
    mainMux.ServeHTTP { Method := "GET", Path := "//foo", Query := [], PostForm := [] }
      = .redirect "/foo" :=
  ⟨by decide,
   (routes_of_main { Method := "GET", Path := "/foo", Query := [], PostForm := [] }).2.2.2.1
     (by decide) (by decide) (by decide) (Or.inr (by decide)),
   by decide,
   (routes_of_main { Method := "GET", Path := "//foo", Query := [], PostForm := [] }).2.2.2.2.1
     (by decide) (by decide) (by decide)⟩

/-! ## Sequences of creates and deletes -/

theorem indexHandler_not_redirect (fault : QueryFault) (db : DB) (r : Request) :
    (indexHandler fault db ResponseWriter.fresh r).1.status ≠ some StatusSeeOther := by
  rcases indexHandler_status fault db r with h | h <;> rw [h] <;> decide

theorem namedBy_cons (idEq : String → Int → Bool) (x : String) (ds : List String) (t : Todo) :
    namedBy idEq (x :: ds) t = (idEq x t.ID || namedBy idEq ds t) := by
  simp [namedBy]

theorem namedBy_perm (idEq : String → Int → Bool) {ds1 ds2 : List String}
    (h : ds1.Perm ds2) (t : Todo) : namedBy idEq ds1 t = namedBy idEq ds2 t := by
  unfold namedBy
  rw [Bool.eq_iff_iff]
  simp only [List.any_eq_true]
  constructor
  · rintro ⟨x, hx, hp⟩
    exact ⟨x, h.mem_iff.mp hx, hp⟩
  · rintro ⟨x, hx, hp⟩
    exact ⟨x, h.mem_iff.mpr hx, hp⟩

/-- A successful run ends in the listing the specification expects. -/
theorem runChecked_rows (idEq : String → Int → Bool) (calls : List Call) :
    ∀ (db db1 : DB), runChecked idEq calls db = some db1 →
      db1.rows = expectedListing idEq db calls := by
  induction calls with
  | nil =>
    intro db db1 h
    simp only [runChecked, Option.some.injEq] at h
    subst h
    simp [expectedListing, deletesOf, namedBy, createdBy]
  | cons c cs ih =>
    intro db db1 h
    simp only [runChecked] at h
    split at h
    · rename_i hst
      cases c with
      | index fault r => exact absurd hst (indexHandler_not_redirect fault db r)
      | create fault r =>
        simp only [Call.run] at hst h
        obtain ⟨_, _, v, hv, hdb⟩ := createHandler_success hst
        rw [hdb] at h
        rw [ih _ _ h]
        simp only [expectedListing, createdBy, Call.creates, hv, Call.run, hdb, deletesOf,
          List.filterMap_cons, Call.deleteId, List.filter_append, List.filter_cons,
          List.filter_nil]
        by_cases hn : namedBy idEq (List.filterMap Call.deleteId cs)
            { ID := v, Title := r.FormValue "title" } = true
        · simp [hn]
        · simp [hn]
      | delete fault r =>
        simp only [Call.run] at hst h
        have hf := deleteHandler_success hst
        subst hf
        rw [deleteHandler_none] at h
        rw [ih _ _ h]
        simp only [expectedListing, createdBy, Call.creates, Call.run, deleteHandler_none,
          deletesOf, List.filterMap_cons, Call.deleteId, List.filter_filter]
        congr 1
        apply List.filter_congr
        intro t _
        have := namedBy_cons idEq (r.QueryGet "id") (List.filterMap Call.deleteId cs) t
        rw [this]
        cases idEq (r.QueryGet "id") t.ID <;> simp
    · simp at h

theorem runChecked_append (idEq : String → Int → Bool) (a b : List Call) :
    ∀ db : DB, runChecked idEq (a ++ b) db = (runChecked idEq a db).bind (runChecked idEq b) := by
  induction a with
  | nil => intro db; rfl
  | cons c cs ih =>
    intro db
    simp only [List.cons_append, runChecked]
    split
    · exact ih _
    · rfl

/-- A run of delete calls succeeds when the environment lets each statement
run, and then removes the items named by any of them. -/
theorem runChecked_deletes (idEq : String → Int → Bool) (ds : List Call)
    (hds : ∀ c ∈ ds, c.isDelete = true) :
    ∀ db : DB, runChecked idEq ds db =
      if ds.all Call.deleteRuns
      then some { db with rows := db.rows.filter (fun t => !namedBy idEq (deletesOf ds) t) }
      else none := by
  induction ds with
  | nil =>
    intro db
    simp [runChecked, deletesOf, namedBy]
  | cons c cs ih =>
    intro db
    have hc := hds c (List.mem_cons_self _ _)
    have hcs : ∀ c1 ∈ cs, c1.isDelete = true := fun c1 h1 => hds c1 (List.mem_cons_of_mem _ h1)
    cases c with
    | index fault r => simp [Call.isDelete] at hc
    | create fault r => simp [Call.isDelete] at hc
    | delete fault r =>
      cases fault with
      | some e =>
        have hst : (Call.run idEq db (.delete (some e) r)).1.status ≠ some StatusSeeOther := by
          simp only [Call.run, deleteHandler, execDelete, status_httpError_fresh]
          decide
        simp [runChecked, hst, Call.deleteRuns]
      | none =>
        have hst : (httpRedirect ResponseWriter.fresh r "/" StatusSeeOther).status
            = some StatusSeeOther := status_httpRedirect_fresh _ _ _
        simp only [runChecked, Call.run, deleteHandler_none, hst, if_true, ih hcs,
          List.all_cons, Call.deleteRuns, Bool.true_and]
        split
        · simp only [deletesOf, List.filterMap_cons, Call.deleteId, List.filter_filter]
          congr 2
          apply List.filter_congr
          intro t _
          have := namedBy_cons idEq (r.QueryGet "id") (List.filterMap Call.deleteId cs) t
          rw [this]
          cases idEq (r.QueryGet "id") t.ID <;> simp
        · rfl

theorem runChecked_deletes_perm (idEq : String → Int → Bool) {ds1 ds2 : List Call}
    (hds : ∀ c ∈ ds1, c.isDelete = true) (hp : ds1.Perm ds2) (db : DB) :
    runChecked idEq ds1 db = runChecked idEq ds2 db := by
  have hds2 : ∀ c ∈ ds2, c.isDelete = true := fun c hc => hds c (hp.mem_iff.mpr hc)
  rw [runChecked_deletes idEq ds1 hds, runChecked_deletes idEq ds2 hds2]
  have hall : ds1.all Call.deleteRuns = ds2.all Call.deleteRuns := by
    rw [Bool.eq_iff_iff]
    simp only [List.all_eq_true]
    exact ⟨fun h c hc => h c (hp.mem_iff.mpr hc), fun h c hc => h c (hp.mem_iff.mp hc)⟩
  have hnamed : ∀ t, namedBy idEq (deletesOf ds1) t = namedBy idEq (deletesOf ds2) t :=
    fun t => namedBy_perm idEq (hp.filterMap _) t
  rw [hall]
  simp only [hnamed]

/-! ## Identifiers along a run -/

/-- A handler invocation leaves the store as it is, appends one row under a new
key, or removes rows. -/
theorem run_cases (idEq : String → Int → Bool) (db : DB) (c : Call) :
    (c.run idEq db).2 = db ∨
    (∃ v T, newRowid db = some v ∧ (c.run idEq db).2 = ⟨db.rows ++ [⟨v, T⟩], v⟩) ∨
    (∃ p : Todo → Bool, (c.run idEq db).2 = ⟨db.rows.filter p, db.seq⟩) := by
  cases c with
  | index fault r => exact Or.inl (indexHandler_store fault db _ r)
  | create fault r =>
    simp only [Call.run, createHandler]
    split
    · cases fault with
      | some e => exact Or.inl rfl
      | none =>
        cases hv : newRowid db with
        | none =>
          left
          simp only [execInsert, hv]
        | some v =>
          right; left
          exact ⟨v, r.FormValue "title", rfl, by simp only [execInsert, hv]⟩
    · exact Or.inl rfl
  | delete fault r =>
    cases fault with
    | some e => exact Or.inl rfl
    | none => exact Or.inr (Or.inr ⟨_, rfl⟩)

theorem newIds_of_subset {old new : List Todo} (h : ∀ t ∈ new, t ∈ old) : newIds old new = [] := by
  unfold newIds
  rw [List.filter_eq_nil_iff]
  intro i hi
  obtain ⟨t, ht, rfl⟩ := List.mem_map.mp hi
  simp only [decide_not, Bool.not_eq_true', decide_eq_false_iff_not, not_not]
  exact List.mem_map.mpr ⟨t, h t ht, rfl⟩

theorem newIds_append (old : List Todo) (v : Int) (T : String) (hv : ∀ t ∈ old, t.ID < v) :
    newIds old (old ++ [⟨v, T⟩]) = [v] := by
  unfold newIds
  rw [List.map_append, List.filter_append]
  have h1 : (old.map Todo.ID).filter (fun i => decide (i ∉ old.map Todo.ID)) = [] := by
    rw [List.filter_eq_nil_iff]
    intro i hi
    simpa using hi
  have h2 : v ∉ old.map Todo.ID := by
    intro hm
    obtain ⟨t, ht, hte⟩ := List.mem_map.mp hm
    have := hv t ht
    omega
  rw [h1]
  simp only [List.map_cons, List.map_nil, List.nil_append, List.filter_cons, List.filter_nil]
  simp only [h2, not_false_eq_true, decide_True, if_true]

/-- One handler invocation keeps the invariant, assigns only ids larger than
every id of the log, and leaves every item that stays as it was. -/
theorem step_inv (idEq : String → Int → Bool) (db : DB) (log : List Int) (c : Call)
    (h : LogInv db log) :
    LogInv (c.run idEq db).2 (log ++ newIds db.rows (c.run idEq db).2.rows) ∧
    (∀ i ∈ newIds db.rows (c.run idEq db).2.rows, ∀ j ∈ log, j < i) ∧
    (∀ t ∈ (c.run idEq db).2.rows, t ∈ db.rows ∨ ∀ t0 ∈ db.rows, t0.ID ≠ t.ID) := by
  obtain ⟨h0, hlog, hrows, hnd, hpw⟩ := h
  rcases run_cases idEq db c with he | ⟨v, T, hv, he⟩ | ⟨p, he⟩
  · rw [he, newIds_of_subset (fun t ht => ht), List.append_nil]
    exact ⟨⟨h0, hlog, hrows, hnd, hpw⟩, by simp, fun t ht => Or.inl ht⟩
  · obtain ⟨hseq, hlt⟩ := newRowid_gt hv
    rw [he]
    simp only
    rw [newIds_append db.rows v T hlt]
    refine ⟨⟨by show 0 ≤ v; omega, ?_, ?_, ?_, ?_⟩, ?_, ?_⟩
    · intro i hi
      show i ≤ v
      rcases List.mem_append.mp hi with hi | hi
      · have := hlog i hi
        omega
      · simp only [List.mem_singleton] at hi
        omega
    · intro t ht
      rcases List.mem_append.mp ht with ht | ht
      · exact List.mem_append.mpr (Or.inl (hrows t ht))
      · simp only [List.mem_singleton] at ht
        subst ht
        simp
    · rw [List.map_append, List.nodup_append]
      refine ⟨hnd, by simp, ?_⟩
      intro i hi1 hi2
      simp only [List.map_cons, List.map_nil, List.mem_singleton] at hi2
      obtain ⟨t, ht, hte⟩ := List.mem_map.mp hi1
      have := hlt t ht
      omega
    · rw [List.pairwise_append]
      refine ⟨hpw, by simp, ?_⟩
      intro a ha b hb
      simp only [List.mem_singleton] at hb
      have := hlog a ha
      omega
    · intro i hi j hj
      simp only [List.mem_singleton] at hi
      have := hlog j hj
      omega
    · intro t ht
      rcases List.mem_append.mp ht with ht | ht
      · exact Or.inl ht
      · simp only [List.mem_singleton] at ht
        subst ht
        right
        intro t0 ht0
        have := hlt t0 ht0
        simp only
        omega
  · rw [he]
    simp only
    rw [newIds_of_subset (fun t ht => List.mem_of_mem_filter ht), List.append_nil]
    refine ⟨⟨h0, hlog, fun t ht => hrows t (List.mem_of_mem_filter ht), ?_, hpw⟩, by simp,
      fun t ht => Or.inl (List.mem_of_mem_filter ht)⟩
    exact (List.filter_sublist db.rows).map Todo.ID |>.nodup hnd

theorem runLog_inv (idEq : String → Int → Bool) (calls : List Call) :
    ∀ (db : DB) (log : List Int), LogInv db log →
      LogInv (runLog idEq calls db log).1 (runLog idEq calls db log).2 := by
  induction calls with
  | nil => intro db log h; exact h
  | cons c cs ih =>
    intro db log h
    simp only [runLog]
    exact ih _ _ (step_inv idEq db log c h).1

theorem logInv_init : LogInv initDB [] := by
  simp [LogInv, initDB]

theorem runLog_fst (idEq : String → Int → Bool) (calls : List Call) :
    ∀ (db : DB) (log : List Int), (runLog idEq calls db log).1 = runCalls idEq calls db := by
  induction calls with
  | nil => intro db log; rfl
  | cons c cs ih =>
    intro db log
    simp only [runLog, runCalls]
    exact ih _ _

/-! ## Properties of runs -/

/-- C7 as stated fails: with the creates in the same places, issuing the
deletes of ids 2 and 1 in one order or the other gives different listings.
Create, delete 2, create, delete 1 leaves the second item (id 2 did not exist
yet when it was named); create, delete 1, create, delete 2 leaves nothing. -/
theorem delete_order_counterexample :
    runChecked decimalEq
        [ .create none { Method := "POST", Path := "/create", Query := [],
                         PostForm := [("title", "a")] },
          .delete none { Method := "GET", Path := "/delete", Query := [("id", "2")],
                         PostForm := [] },
          .create none { Method := "POST", Path := "/create", Query := [],
                         PostForm := [("title", "b")] },
          .delete none { Method := "GET", Path := "/delete", Query := [("id", "1")],
                         PostForm := [] } ] initDB
      = some { rows := [{ ID := 2, Title := "b" }], seq := 2 } ∧
    runChecked decimalEq
        [ .create none { Method := "POST", Path := "/create", Query := [],
                         PostForm := [("title", "a")] },
          .delete none { Method := "GET", Path := "/delete", Query := [("id", "1")],
                         PostForm := [] },
          .create none { Method := "POST", Path := "/create", Query := [],
                         PostForm := [("title", "b")] },
          .delete none { Method := "GET", Path := "/delete", Query := [("id", "2")],
                         PostForm := [] } ] initDB
      = some { rows := [], seq := 2 } := by
  decide

/-- C7, amended: from any store state, after any sequence of creates and
deletes that are all answered by the success redirect, the listing consists of
the initial items and the items created by the sequence, without those whose
id was named by a delete issued after the item came into being; and the
outcome does not depend on the order of deletes issued with no create between
them (any permutation of a block of consecutive deletes, anywhere in the
sequence, gives the same outcome). -/
theorem final_listing (idEq : String → Int → Bool) (db : DB) :
    (∀ (calls : List Call) (db1 : DB), runChecked idEq calls db = some db1 →
      listTodos .none db1 = .ok (expectedListing idEq db calls)) ∧
    (∀ (before ds1 ds2 after : List Call), (∀ c ∈ ds1, c.isDelete = true) → ds1.Perm ds2 →
      runChecked idEq (before ++ ds1 ++ after) db
        = runChecked idEq (before ++ ds2 ++ after) db) := by
  constructor
  · intro calls db1 h
    rw [listTodos_none, runChecked_rows idEq calls db db1 h]
  · intro before ds1 ds2 after hds hp
    rw [List.append_assoc, List.append_assoc, runChecked_append, runChecked_append idEq before]
    cases runChecked idEq before db with
    | none => rfl
    | some d =>
      simp only [Option.bind]
      rw [runChecked_append, runChecked_append idEq ds2, runChecked_deletes_perm idEq hds hp]

/-- Instance of amended C7 on a store whose counter (3) is below its only key
(10): two creates, then deletes of ids 11 and 9, leave the old item and the
second new one. -/
theorem final_listing_witness :
    runChecked decimalEq
        [ .create none { Method := "POST", Path := "/create", Query := [],
                         PostForm := [("title", "a")] },
          .create none { Method := "POST", Path := "/create", Query := [],
                         PostForm := [("title", "b")] },
          .delete none { Method := "GET", Path := "/delete", Query := [("id", "11")],
                         PostForm := [] },
          .delete none { Method := "GET", Path := "/delete", Query := [("id", "9")],
                         PostForm := [] } ] { rows := [{ ID := 10, Title := "hi" }], seq := 3 }
      = some { rows := [{ ID := 10, Title := "hi" }, { ID := 12, Title := "b" }], seq := 12 } ∧
    listTodos .none { rows := [{ ID := 10, Title := "hi" }, { ID := 12, Title := "b" }],
                      seq := 12 }
      = .ok (expectedListing decimalEq { rows := [{ ID := 10, Title := "hi" }], seq := 3 }
        [ .create none { Method := "POST", Path := "/create", Query := [],
                         PostForm := [("title", "a")] },
          .create none { Method := "POST", Path := "/create", Query := [],
                         PostForm := [("title", "b")] },
          .delete none { Method := "GET", Path := "/delete", Query := [("id", "11")],
                         PostForm := [] },
          .delete none { Method := "GET", Path := "/delete", Query := [("id", "9")],
                         PostForm := [] } ]) ∧
    expectedListing decimalEq { rows := [{ ID := 10, Title := "hi" }], seq := 3 }
        [ .create none { Method := "POST", Path := "/create", Query := [],
                         PostForm := [("title", "a")] },
          .create none { Method := "POST", Path := "/create", Query := [],
                         PostForm := [("title", "b")] },
          .delete none { Method := "GET", Path := "/delete", Query := [("id", "11")],
                         PostForm := [] },
          .delete none { Method := "GET", Path := "/delete", Query := [("id", "9")],
                         PostForm := [] } ]
      = [{ ID := 10, Title := "hi" }, { ID := 12, Title := "b" }] :=
  ⟨by decide,
   (final_listing decimalEq { rows := [{ ID := 10, Title := "hi" }], seq := 3 }).1 _ _
     (by decide),
   by decide⟩

/-- C8: in every state reached from the new, empty store by any sequence of
handler invocations, the stored ids are pairwise distinct and all come from
the log of assigned ids, which is strictly increasing (so an id, once
assigned, is never assigned again, deleted or not); a further invocation
assigns only ids larger than every id of the log, and each item it leaves in
the store either was there before with the same id and title or carries an id
that no item had before. -/
theorem ids_unique_and_increasing (idEq : String → Int → Bool) (calls : List Call) :
    (runLog idEq calls initDB []).1 = runCalls idEq calls initDB ∧
    ((runLog idEq calls initDB []).1.rows.map Todo.ID).Nodup ∧
    (runLog idEq calls initDB []).2.Pairwise (fun a b => a < b) ∧
    (∀ t ∈ (runLog idEq calls initDB []).1.rows, t.ID ∈ (runLog idEq calls initDB []).2) ∧
    (∀ c : Call,
      (∀ i ∈ newIds (runLog idEq calls initDB []).1.rows
            (c.run idEq (runLog idEq calls initDB []).1).2.rows,
          ∀ j ∈ (runLog idEq calls initDB []).2, j < i) ∧
      (∀ t ∈ (c.run idEq (runLog idEq calls initDB []).1).2.rows,
          t ∈ (runLog idEq calls initDB []).1.rows ∨
          ∀ t0 ∈ (runLog idEq calls initDB []).1.rows, t0.ID ≠ t.ID)) := by
  have hinv := runLog_inv idEq calls initDB [] logInv_init
  refine ⟨runLog_fst idEq calls initDB [], hinv.2.2.2.1, hinv.2.2.2.2, hinv.2.2.1, fun c => ?_⟩
  exact (step_inv idEq _ _ c hinv).2

/-- Instance of C8: create, delete of id 1, create; the second create gets id
2, not the freed id 1. -/
theorem ids_unique_and_increasing_witness :
    runLog decimalEq
        [ .create none { Method := "POST", Path := "/create", Query := [],
                         PostForm := [("title", "a")] },
          .delete none { Method := "GET", Path := "/delete", Query := [("id", "1")],
                         PostForm := [] },
          .create none { Method := "POST", Path := "/create", Query := [],
                         PostForm := [("title", "b")] } ] initDB []
      = ({ rows := [{ ID := 2, Title := "b" }], seq := 2 }, [1, 2]) ∧
    (runLog decimalEq
        [ .create none { Method := "POST", Path := "/create", Query := [],
                         PostForm := [("title", "a")] },
          .delete none { Method := "GET", Path := "/delete", Query := [("id", "1")],
                         PostForm := [] },
          .create none { Method := "POST", Path := "/create", Query := [],
                         PostForm := [("title", "b")] } ] initDB []).2.Pairwise
      (fun a b => a < b) :=
  ⟨by decide, (ids_unique_and_increasing decimalEq _).2.2.1⟩

end TodoApp
